import Mathlib

/-!
Verification development for the `strategy_backtest` repository.

The backtest simulation core is shallowly embedded over exact rational
arithmetic (`ℚ` in place of Python floats): the position-sizing calculator
and exit-condition evaluator of `strategies/base_strategy.py`, the
engine event loop, position lifecycle, cost model and metric aggregator of
`backtest_engine.py`, and the streak statistics of `analysis/performance.py`.
Python dictionaries with optional keys (`symbol_info`) become structures of
`Option` fields read through `getD` (mirroring `dict.get(key, default)`),
and Python `None`-able attributes become `Option` fields.
-/

namespace StrategyBacktest

/-! ## Python rounding

Python's builtin `round` rounds half to even (banker's rounding); with a
second argument `round(x, 2)` rounds to two decimal places the same way.
-/

/-- Python builtin `abs` on a float. -/
def pyAbs (x : ℚ) : ℚ := if x < 0 then -x else x

/-- Python builtin `max` of two floats. -/
def pyMax (a b : ℚ) : ℚ := if a < b then b else a

/-- Python builtin `min` of two floats. -/
def pyMin (a b : ℚ) : ℚ := if b < a then b else a

theorem pyAbs_eq_abs (x : ℚ) : pyAbs x = |x| := by
  unfold pyAbs
  split
  · exact (abs_of_neg (by assumption)).symm
  · exact (abs_of_nonneg (not_lt.mp (by assumption))).symm

theorem pyMax_eq_max (a b : ℚ) : pyMax a b = max a b := by
  unfold pyMax
  rcases lt_or_ge a b with h | h
  · simp [h, max_eq_right h.le]
  · simp [not_lt.mpr h, max_eq_left h]

theorem pyMin_eq_min (a b : ℚ) : pyMin a b = min a b := by
  unfold pyMin
  rcases lt_or_ge b a with h | h
  · simp [h, min_eq_right h.le]
  · simp [not_lt.mpr h, min_eq_left h]

/-- Python `round(x)`: nearest integer, ties to even. -/
def pyRound (x : ℚ) : ℤ :=
  let f : ℤ := ⌊x⌋
  let frac : ℚ := x - f
  if frac < 1/2 then f
  else if 1/2 < frac then f + 1
  else if f % 2 = 0 then f else f + 1

/-- Python `round(x, 2)`: round to two decimal places, ties to even. -/
def pyRound2 (x : ℚ) : ℚ := (pyRound (x * 100) : ℚ) / 100

theorem pyRound_sub_le (x : ℚ) : |(pyRound x : ℚ) - x| ≤ 1/2 := by
  unfold pyRound
  have hfl : (⌊x⌋ : ℚ) ≤ x := Int.floor_le x
  have hfu : x < (⌊x⌋ : ℚ) + 1 := Int.lt_floor_add_one x
  by_cases h1 : x - (⌊x⌋ : ℚ) < 1/2
  · simp only [h1, if_true]
    rw [abs_le]; constructor <;> linarith
  · by_cases h2 : (1:ℚ)/2 < x - (⌊x⌋ : ℚ)
    · simp only [h1, h2, if_false, if_true]
      push_cast
      rw [abs_le]; constructor <;> linarith
    · have he : x - (⌊x⌋ : ℚ) = 1/2 := le_antisymm (not_lt.mp h2) (not_lt.mp h1)
      by_cases h3 : ⌊x⌋ % 2 = 0
      · simp only [h1, h2, h3, if_false, if_true]
        rw [abs_le]; constructor <;> linarith
      · simp only [h1, h2, h3, if_false, if_true]
        push_cast
        rw [abs_le]; constructor <;> linarith

theorem pyRound2_sub_le (x : ℚ) : |pyRound2 x - x| ≤ 1/200 := by
  unfold pyRound2
  have h := pyRound_sub_le (x * 100)
  rw [abs_le] at h ⊢
  constructor <;> [linarith [h.1]; linarith [h.2]]

/-! ## Data model (`strategies/base_strategy.py`, `backtest_engine.py`) -/

/-- `Signal.signal_type` strings: BUY / SELL / CLOSE_LONG / CLOSE_SHORT. -/
inductive SignalType
  | BUY | SELL | CLOSE_LONG | CLOSE_SHORT
deriving DecidableEq, Repr

/-- `Position.position_type` / `Trade.trade_type` strings: LONG / SHORT. -/
inductive PosType
  | LONG | SHORT
deriving DecidableEq, Repr

/-- `Signal` dataclass.  The open metadata dict is used by the core only
through `metadata.get('reason', 'signal')`, so it is modelled as the
optional reason string. -/
structure Signal where
  timestamp : ℕ
  signal_type : SignalType
  price : ℚ
  stop_loss : Option ℚ := none
  take_profit : Option ℚ := none
  position_size : ℚ := 0
  metadata_reason : Option String := none
deriving DecidableEq, Repr

/-- `Position` dataclass.  `lowest_price` defaults to `float('inf')` in the
source; it and `highest_price` are consumed only by the strategy-side
trailing-stop updater (never by the engine), so the infinity sentinel is
represented as `none`. -/
structure Position where
  entry_timestamp : ℕ
  entry_price : ℚ
  position_type : PosType
  size : ℚ
  stop_loss : Option ℚ := none
  take_profit : Option ℚ := none
  trailing_stop : Option ℚ := none
  highest_price : ℚ := 0
  lowest_price : Option ℚ := none
deriving DecidableEq, Repr

/-- One OHLC bar of the input series; `timestamp` is the pandas index value
(`bar.name`). -/
structure Bar where
  timestamp : ℕ
  open_price : ℚ
  high : ℚ
  low : ℚ
  close : ℚ
deriving DecidableEq, Repr

/-- The `symbol_info` dictionary.  Each key may be absent (`none`); reads go
through `get` with the source's defaults. -/
structure SymbolInfo where
  point : Option ℚ := none
  trade_contract_size : Option ℚ := none
  volume_min : Option ℚ := none
  volume_max : Option ℚ := none
  volume_step : Option ℚ := none
  spread : Option ℚ := none
deriving DecidableEq, Repr

/-- `BacktestConfig` (config/settings.py), the fields the engine reads. -/
structure BacktestConfig where
  initial_capital : ℚ := 10000
  commission : ℚ := 0
  commission_pct : ℚ := 0
  slippage_pct : ℚ := 1/100
  leverage : ℚ := 100
  use_spread : Bool := true
deriving DecidableEq, Repr

/-- `Trade` dataclass (immutable closed-position record). -/
structure Trade where
  entry_time : ℕ
  exit_time : ℕ
  entry_price : ℚ
  exit_price : ℚ
  trade_type : PosType
  size : ℚ
  pnl : ℚ
  pnl_pct : ℚ
  commission : ℚ
  slippage : ℚ
  stop_loss : Option ℚ := none
  take_profit : Option ℚ := none
  exit_reason : String := "signal"
  mae : ℚ := 0
  mfe : ℚ := 0
  duration_bars : ℕ := 0
deriving DecidableEq, Repr

/-! ## Position Sizing Calculator (`TradingStrategy._calculate_position_size`) -/

/-- Python float truthiness of an optional price attribute:
`if position.stop_loss:` is entered only when the attribute is neither
`None` nor `0.0`. -/
def truthy (o : Option ℚ) : Bool :=
  match o with
  | none => false
  | some x => decide (x ≠ 0)

/-- The fallback dictionary `_calculate_position_size` substitutes when
`symbol_info is None` (FOREX/EURUSD-like defaults, with a logged warning). -/
def defaultForexInfo : SymbolInfo :=
  { point := some (1/100000)
    trade_contract_size := some 100000
    volume_min := some (1/100)
    volume_max := some 100
    volume_step := some (1/100)
    spread := none }

/-- `TradingStrategy._calculate_position_size`.

`risk_per_trade` is the strategy attribute `self.risk_per_trade`;
`fallback_stop` stands for the value `self._calculate_stop_loss(signal,
current_price)` would return (it depends on mutable indicator state and is
consulted only when the signal carries no stop-loss). -/
def calculate_position_size (risk_per_trade : ℚ) (fallback_stop : ℚ)
    (signal : Signal) (current_price : ℚ) (account_balance : ℚ)
    (symbol_info : Option SymbolInfo) : ℚ :=
  let risk_amount := account_balance * risk_per_trade
  let stop_loss := signal.stop_loss.getD fallback_stop
  let si := symbol_info.getD defaultForexInfo
  let point_size := si.point.getD (1/100000)
  let contract_size := si.trade_contract_size.getD 100000
  let stop_distance_price := pyAbs (current_price - stop_loss)
  let stop_distance_pips := stop_distance_price / point_size
  if stop_distance_pips = 0 then
    -- log error "Stop distance is zero", return minimum position size
    si.volume_min.getD (1/100)
  else
    let value_per_pip := contract_size * point_size
    let position_size_calculated := risk_amount / (stop_distance_pips * value_per_pip)
    let min_size := si.volume_min.getD (1/100)
    let max_size := si.volume_max.getD 100
    let volume_step := si.volume_step.getD (1/100)
    let position_size := (pyRound (position_size_calculated / volume_step) : ℚ) * volume_step
    let position_size := pyMax min_size (pyMin position_size max_size)
    pyRound2 position_size

/-! ### Rounding / clamping bounds for the sizing calculator -/

theorem snap_sub_le (raw s : ℚ) (hs : 0 < s) :
    |(pyRound (raw / s) : ℚ) * s - raw| ≤ s / 2 := by
  have h := pyRound_sub_le (raw / s)
  have heq : (pyRound (raw / s) : ℚ) * s - raw = ((pyRound (raw / s) : ℚ) - raw / s) * s := by
    field_simp
  rw [heq, abs_mul, abs_of_pos hs]
  calc |(pyRound (raw / s) : ℚ) - raw / s| * s ≤ (1/2) * s :=
        mul_le_mul_of_nonneg_right h hs.le
    _ = s / 2 := by ring

theorem clamp_sub_le (lo hi x raw : ℚ) (h1 : lo ≤ raw) (h2 : raw ≤ hi) :
    |pyMax lo (pyMin x hi) - raw| ≤ |x - raw| := by
  rw [pyMax_eq_max, pyMin_eq_min]
  rcases lt_or_le x lo with hxlo | hxlo
  · have hxhi : x ≤ hi := le_trans hxlo.le (le_trans h1 h2)
    rw [min_eq_left hxhi, max_eq_left hxlo.le,
      abs_of_nonpos (by linarith), abs_of_nonpos (by linarith)]
    linarith
  · rcases le_or_lt x hi with hxhi | hxhi
    · rw [min_eq_left hxhi, max_eq_right hxlo]
    · rw [min_eq_right hxhi.le, max_eq_right (le_trans h1 h2),
        abs_of_nonneg (by linarith), abs_of_nonneg (by linarith)]
      linarith

/-- The snapped-then-clamped-then-2-decimal-rounded lot size stays within one
`volume_step` of the raw lot size, provided `volume_step ≥ 0.01` and the raw
size is inside the clamping interval. -/
theorem sized_close_to_raw (raw lo hi s : ℚ) (hs : 1/100 ≤ s)
    (h1 : lo ≤ raw) (h2 : raw ≤ hi) :
    |pyRound2 (pyMax lo (pyMin ((pyRound (raw / s) : ℚ) * s) hi)) - raw| ≤ s := by
  have hs0 : (0:ℚ) < s := lt_of_lt_of_le (by norm_num) hs
  have hsnap := snap_sub_le raw s hs0
  have hclamp := clamp_sub_le lo hi ((pyRound (raw / s) : ℚ) * s) raw h1 h2
  have hr2 := pyRound2_sub_le (pyMax lo (pyMin ((pyRound (raw / s) : ℚ) * s) hi))
  calc |pyRound2 (pyMax lo (pyMin ((pyRound (raw / s) : ℚ) * s) hi)) - raw|
      ≤ |pyRound2 (pyMax lo (pyMin ((pyRound (raw / s) : ℚ) * s) hi)) -
          pyMax lo (pyMin ((pyRound (raw / s) : ℚ) * s) hi)| +
        |pyMax lo (pyMin ((pyRound (raw / s) : ℚ) * s) hi) - raw| :=
        abs_sub_le _ _ _
    _ ≤ 1/200 + s/2 := add_le_add hr2 (le_trans hclamp hsnap)
    _ ≤ s := by linarith

/-- **C1 (amended)**: for instrument metadata with point size `P > 0`,
contract size `C > 0` and volume step `s ≥ 0.01`, any balance `B`, risk
fraction `r`, entry `E` and stop `S ≠ E`, the returned lot size satisfies
`lots × (|E−S|/P) × (C×P) ≈ B×r` within one `volume_step` of risk, provided
the raw size `B×r / ((|E−S|/P) × (C×P))` lies inside
`[volume_min, volume_max]`.  (The source additionally rounds the lot size to
two decimals, so the bound requires `volume_step ≥ 0.01`; see the
counterexample for smaller steps.) -/
theorem position_sizing_risk_bound
    (rpt fallback E S B P C vmin vmax s : ℚ) (sig : Signal) (si : SymbolInfo)
    (hpoint : si.point = some P) (hcs : si.trade_contract_size = some C)
    (hmin : si.volume_min = some vmin) (hmax : si.volume_max = some vmax)
    (hstep : si.volume_step = some s) (hsl : sig.stop_loss = some S)
    (hP : 0 < P) (hC : 0 < C) (hs : 1/100 ≤ s) (hES : E ≠ S)
    (hlo : vmin ≤ B * rpt / ((|E - S| / P) * (C * P)))
    (hhi : B * rpt / ((|E - S| / P) * (C * P)) ≤ vmax) :
    |calculate_position_size rpt fallback sig E B (some si) * (|E - S| / P) * (C * P)
        - B * rpt|
      ≤ s * ((|E - S| / P) * (C * P)) := by
  have habs : |E - S| ≠ 0 := abs_ne_zero.mpr (sub_ne_zero.mpr hES)
  have hpips : |E - S| / P ≠ 0 := div_ne_zero habs hP.ne'
  have hunfold : calculate_position_size rpt fallback sig E B (some si) =
      pyRound2 (pyMax vmin (pyMin
        ((pyRound (B * rpt / (|E - S| / P * (C * P)) / s) : ℚ) * s) vmax)) := by
    simp only [calculate_position_size, hsl, hpoint, hcs, hmin, hmax, hstep,
      Option.getD_some, pyAbs_eq_abs]
    rw [if_neg hpips]
  rw [hunfold]
  have hDV : (0:ℚ) < |E - S| / P * (C * P) :=
    mul_pos (div_pos (abs_pos.mpr (sub_ne_zero.mpr hES)) hP) (mul_pos hC hP)
  have hb := sized_close_to_raw (B * rpt / (|E - S| / P * (C * P))) vmin vmax s hs hlo hhi
  have hraw : B * rpt / (|E - S| / P * (C * P)) * (|E - S| / P * (C * P)) = B * rpt :=
    div_mul_cancel₀ _ hDV.ne'
  have hfact : (pyRound2 (pyMax vmin (pyMin
        ((pyRound (B * rpt / (|E - S| / P * (C * P)) / s) : ℚ) * s) vmax)) -
        B * rpt / (|E - S| / P * (C * P))) * (|E - S| / P * (C * P)) =
      pyRound2 (pyMax vmin (pyMin
        ((pyRound (B * rpt / (|E - S| / P * (C * P)) / s) : ℚ) * s) vmax)) *
        (|E - S| / P) * (C * P) - B * rpt := by
    rw [sub_mul, hraw, mul_assoc]
  calc |pyRound2 (pyMax vmin (pyMin
          ((pyRound (B * rpt / (|E - S| / P * (C * P)) / s) : ℚ) * s) vmax)) *
          (|E - S| / P) * (C * P) - B * rpt|
      = |pyRound2 (pyMax vmin (pyMin
          ((pyRound (B * rpt / (|E - S| / P * (C * P)) / s) : ℚ) * s) vmax)) -
          B * rpt / (|E - S| / P * (C * P))| * (|E - S| / P * (C * P)) := by
        rw [← hfact, abs_mul, abs_of_pos hDV]
    _ ≤ s * (|E - S| / P * (C * P)) := mul_le_mul_of_nonneg_right hb hDV.le

/-- **C1 witness**: the spec's forex scenario — balance 10000, risk 2%,
point 0.00001, contract 100000, entry 1.1000, stop 1.0980, volume step
0.01 — satisfies the risk bound. -/
theorem position_sizing_risk_bound_witness :
    ((1:ℚ)/100 ≤ 1/100 ∧ (11:ℚ)/10 ≠ 1098/1000) ∧
    |calculate_position_size (1/50) 0
        { timestamp := 0, signal_type := .BUY, price := 11/10,
          stop_loss := some (1098/1000) }
        (11/10) 10000
        (some { point := some (1/100000), trade_contract_size := some 100000,
                volume_min := some (1/100), volume_max := some 100,
                volume_step := some (1/100) }) *
        (|(11:ℚ)/10 - 1098/1000| / (1/100000)) * (100000 * (1/100000))
      - 10000 * (1/50)|
      ≤ (1/100) * ((|(11:ℚ)/10 - 1098/1000| / (1/100000)) * (100000 * (1/100000))) :=
  ⟨⟨by norm_num, by norm_num⟩,
    position_sizing_risk_bound (1/50) 0 (11/10) (1098/1000) 10000 (1/100000) 100000
      (1/100) 100 (1/100)
      { timestamp := 0, signal_type := .BUY, price := 11/10,
        stop_loss := some (1098/1000) }
      { point := some (1/100000), trade_contract_size := some 100000,
        volume_min := some (1/100), volume_max := some 100,
        volume_step := some (1/100) }
      rfl rfl rfl rfl rfl rfl (by norm_num) (by norm_num) (by norm_num) (by norm_num)
      (by rw [show |(11:ℚ)/10 - 1098/1000| = 2/1000 by rw [abs_of_pos] <;> norm_num]
          norm_num)
      (by rw [show |(11:ℚ)/10 - 1098/1000| = 2/1000 by rw [abs_of_pos] <;> norm_num]
          norm_num)⟩

/-- **C1 counterexample**: with volume step 0.001 (smaller than the final
two-decimal rounding), balance 12340, risk 2%, forex metadata, entry 1.10,
stop 1.08, the raw size 0.1234 lies inside `[volume_min, volume_max]` and
every hypothesis of the claim holds, yet the returned 0.12 lots miss the
target risk by $6.80 — more than one volume_step of risk ($2). -/
theorem position_sizing_risk_bound_counterexample :
    ((0:ℚ) < 1/100000 ∧ (0:ℚ) < 100000 ∧ (0:ℚ) < 1/1000 ∧ (11:ℚ)/10 ≠ 27/25 ∧
      (1:ℚ)/1000 ≤ 12340 * (1/50) / ((|(11:ℚ)/10 - 27/25| / (1/100000)) * (100000 * (1/100000))) ∧
      12340 * (1/50) / ((|(11:ℚ)/10 - 27/25| / (1/100000)) * (100000 * (1/100000))) ≤ 100) ∧
    ¬ (|calculate_position_size (1/50) 0
          { timestamp := 0, signal_type := .BUY, price := 11/10,
            stop_loss := some (27/25) }
          (11/10) 12340
          (some { point := some (1/100000), trade_contract_size := some 100000,
                  volume_min := some (1/1000), volume_max := some 100,
                  volume_step := some (1/1000) }) *
          (|(11:ℚ)/10 - 27/25| / (1/100000)) * (100000 * (1/100000))
        - 12340 * (1/50)|
        ≤ (1/1000) * ((|(11:ℚ)/10 - 27/25| / (1/100000)) * (100000 * (1/100000)))) := by
  have habs : |(11:ℚ)/10 - 27/25| = 2/100 := by rw [abs_of_pos] <;> norm_num
  constructor
  · refine ⟨by norm_num, by norm_num, by norm_num, by norm_num, ?_, ?_⟩ <;>
      rw [habs] <;> norm_num
  · rw [habs]
    have habs2 : |(34:ℚ)/5| = 34/5 := abs_of_pos (by norm_num)
    norm_num [calculate_position_size, defaultForexInfo, pyRound2, pyRound,
      pyAbs, pyMax, pyMin, habs2]

/-- **C7**: with zero stop distance (`signal.stop_loss == current_price`),
the sizing calculation takes the guard branch and returns the instrument's
`volume_min` (default 0.01 when absent) — it never reaches the division by
the stop distance. -/
theorem zero_stop_distance_returns_volume_min
    (rpt fallback cp bal : ℚ) (sig : Signal) (osi : Option SymbolInfo)
    (hsl : sig.stop_loss = some cp) :
    calculate_position_size rpt fallback sig cp bal osi
      = ((osi.getD defaultForexInfo).volume_min).getD (1/100) := by
  simp only [calculate_position_size, hsl, Option.getD_some]
  have h0 : pyAbs (cp - cp) = 0 := by simp [pyAbs]
  rw [h0, zero_div, if_pos rfl]

/-- **C7 witness**: entry = stop = 100 with metadata that omits
`volume_min` yields the documented default 0.01. -/
theorem zero_stop_distance_returns_volume_min_witness :
    ({ timestamp := 0, signal_type := .BUY, price := 100,
       stop_loss := some 100 : Signal }).stop_loss = some 100 ∧
    calculate_position_size (1/50) 0
        { timestamp := 0, signal_type := .BUY, price := 100, stop_loss := some 100 }
        100 10000 (some { point := some (1/100) })
      = 1/100 :=
  ⟨rfl, zero_stop_distance_returns_volume_min (1/50) 0 100 10000
      { timestamp := 0, signal_type := .BUY, price := 100, stop_loss := some 100 }
      (some { point := some (1/100) }) rfl⟩

/-! ## Exit Condition Evaluator (`TradingStrategy.check_exit_conditions`)

The source tests, in this order: hard stop-loss, take-profit, trailing
stop (the last only when `self.use_trailing_stop` is set), each against the
bar's `low`/`high`, returning a CLOSE signal priced at the breached level
with a metadata reason tag; `None` when nothing is breached. -/

/-- `TradingStrategy.check_exit_conditions` (use_trailing_stop is the
strategy attribute `self.use_trailing_stop`). -/
def check_exit_conditions (use_trailing_stop : Bool) (position : Position)
    (current_bar : Bar) : Option Signal :=
  -- Verificar stop loss
  let sl_sig : Option Signal :=
    if truthy position.stop_loss then
      let sl := position.stop_loss.getD 0
      if position.position_type = .LONG ∧ current_bar.low ≤ sl then
        some { timestamp := current_bar.timestamp, signal_type := .CLOSE_LONG,
               price := sl, metadata_reason := some "stop_loss" }
      else if position.position_type = .SHORT ∧ sl ≤ current_bar.high then
        some { timestamp := current_bar.timestamp, signal_type := .CLOSE_SHORT,
               price := sl, metadata_reason := some "stop_loss" }
      else none
    else none
  match sl_sig with
  | some s => some s
  | none =>
    -- Verificar take profit
    let tp_sig : Option Signal :=
      if truthy position.take_profit then
        let tp := position.take_profit.getD 0
        if position.position_type = .LONG ∧ tp ≤ current_bar.high then
          some { timestamp := current_bar.timestamp, signal_type := .CLOSE_LONG,
                 price := tp, metadata_reason := some "take_profit" }
        else if position.position_type = .SHORT ∧ current_bar.low ≤ tp then
          some { timestamp := current_bar.timestamp, signal_type := .CLOSE_SHORT,
                 price := tp, metadata_reason := some "take_profit" }
        else none
      else none
    match tp_sig with
    | some s => some s
    | none =>
      -- Verificar trailing stop
      if use_trailing_stop ∧ truthy position.trailing_stop then
        let ts := position.trailing_stop.getD 0
        if position.position_type = .LONG ∧ current_bar.low ≤ ts then
          some { timestamp := current_bar.timestamp, signal_type := .CLOSE_LONG,
                 price := ts, metadata_reason := some "trailing_stop" }
        else if position.position_type = .SHORT ∧ ts ≤ current_bar.high then
          some { timestamp := current_bar.timestamp, signal_type := .CLOSE_SHORT,
                 price := ts, metadata_reason := some "trailing_stop" }
        else none
      else none

/-! ### Specification-side exit evaluator (amended priority order) -/

/-- A truthy stop-loss level is breached intrabar (LONG: bar low touches it;
SHORT: bar high touches it). -/
def slBreached (p : Position) (bar : Bar) : Bool :=
  truthy p.stop_loss &&
    (match p.position_type with
     | .LONG => decide (bar.low ≤ p.stop_loss.getD 0)
     | .SHORT => decide (p.stop_loss.getD 0 ≤ bar.high))

/-- A truthy take-profit level is breached intrabar (LONG: bar high reaches
it; SHORT: bar low reaches it). -/
def tpBreached (p : Position) (bar : Bar) : Bool :=
  truthy p.take_profit &&
    (match p.position_type with
     | .LONG => decide (p.take_profit.getD 0 ≤ bar.high)
     | .SHORT => decide (bar.low ≤ p.take_profit.getD 0))

/-- A truthy trailing-stop level is breached intrabar, like a stop-loss. -/
def trailBreached (p : Position) (bar : Bar) : Bool :=
  truthy p.trailing_stop &&
    (match p.position_type with
     | .LONG => decide (bar.low ≤ p.trailing_stop.getD 0)
     | .SHORT => decide (p.trailing_stop.getD 0 ≤ bar.high))

/-- The CLOSE signal the evaluator emits: priced at the breached level,
directed by the position side, tagged with the given reason. -/
def exitSignalAt (p : Position) (bar : Bar) (level : ℚ) (reason : String) : Signal :=
  { timestamp := bar.timestamp
    signal_type := match p.position_type with
                   | .LONG => .CLOSE_LONG
                   | .SHORT => .CLOSE_SHORT
    price := level
    metadata_reason := some reason }

/-- Amended specification of the evaluator: first breached condition wins in
the priority order stop-loss, take-profit, trailing-stop; the signal is
priced at the breached level and carries the reason tag; nothing breached
yields nothing. -/
def checkExitSpec (use_trailing_stop : Bool) (p : Position) (bar : Bar) :
    Option Signal :=
  if slBreached p bar then
    some (exitSignalAt p bar (p.stop_loss.getD 0) "stop_loss")
  else if tpBreached p bar then
    some (exitSignalAt p bar (p.take_profit.getD 0) "take_profit")
  else if use_trailing_stop && trailBreached p bar then
    some (exitSignalAt p bar (p.trailing_stop.getD 0) "trailing_stop")
  else none

theorem sl_block (p : Position) (bar : Bar) :
    (if truthy p.stop_loss then
      if p.position_type = .LONG ∧ bar.low ≤ p.stop_loss.getD 0 then
        some { timestamp := bar.timestamp, signal_type := .CLOSE_LONG,
               price := p.stop_loss.getD 0, metadata_reason := some "stop_loss" }
      else if p.position_type = .SHORT ∧ p.stop_loss.getD 0 ≤ bar.high then
        some { timestamp := bar.timestamp, signal_type := .CLOSE_SHORT,
               price := p.stop_loss.getD 0, metadata_reason := some "stop_loss" }
      else none
    else none)
    = if slBreached p bar then
        some (exitSignalAt p bar (p.stop_loss.getD 0) "stop_loss")
      else none := by
  unfold slBreached exitSignalAt
  by_cases ht : truthy p.stop_loss
  · cases hpt : p.position_type
    · by_cases hc : bar.low ≤ p.stop_loss.getD 0 <;> simp [ht, hc]
    · by_cases hc : p.stop_loss.getD 0 ≤ bar.high <;> simp [ht, hc]
  · simp [ht]

theorem tp_block (p : Position) (bar : Bar) :
    (if truthy p.take_profit then
      if p.position_type = .LONG ∧ p.take_profit.getD 0 ≤ bar.high then
        some { timestamp := bar.timestamp, signal_type := .CLOSE_LONG,
               price := p.take_profit.getD 0, metadata_reason := some "take_profit" }
      else if p.position_type = .SHORT ∧ bar.low ≤ p.take_profit.getD 0 then
        some { timestamp := bar.timestamp, signal_type := .CLOSE_SHORT,
               price := p.take_profit.getD 0, metadata_reason := some "take_profit" }
      else none
    else none)
    = if tpBreached p bar then
        some (exitSignalAt p bar (p.take_profit.getD 0) "take_profit")
      else none := by
  unfold tpBreached exitSignalAt
  by_cases ht : truthy p.take_profit
  · cases hpt : p.position_type
    · by_cases hc : p.take_profit.getD 0 ≤ bar.high <;> simp [ht, hc]
    · by_cases hc : bar.low ≤ p.take_profit.getD 0 <;> simp [ht, hc]
  · simp [ht]

theorem trail_block (use_trailing_stop : Bool) (p : Position) (bar : Bar) :
    (if use_trailing_stop ∧ truthy p.trailing_stop then
      if p.position_type = .LONG ∧ bar.low ≤ p.trailing_stop.getD 0 then
        some { timestamp := bar.timestamp, signal_type := .CLOSE_LONG,
               price := p.trailing_stop.getD 0, metadata_reason := some "trailing_stop" }
      else if p.position_type = .SHORT ∧ p.trailing_stop.getD 0 ≤ bar.high then
        some { timestamp := bar.timestamp, signal_type := .CLOSE_SHORT,
               price := p.trailing_stop.getD 0, metadata_reason := some "trailing_stop" }
      else none
    else none)
    = if use_trailing_stop && trailBreached p bar then
        some (exitSignalAt p bar (p.trailing_stop.getD 0) "trailing_stop")
      else none := by
  unfold trailBreached exitSignalAt
  by_cases hu : use_trailing_stop = true
  · by_cases ht : truthy p.trailing_stop
    · cases hpt : p.position_type
      · by_cases hc : bar.low ≤ p.trailing_stop.getD 0 <;> simp [hu, ht, hc]
      · by_cases hc : p.trailing_stop.getD 0 ≤ bar.high <;> simp [hu, ht, hc]
    · simp [hu, ht]
  · simp [hu]

/-- **C4 (amended)**: the exit evaluator is exactly the first-breach-wins
check in the priority order hard stop-loss, then take-profit, then
trailing-stop (the source tests take-profit *before* the trailing stop),
each against the bar's low/high, priced at the breached level with the
matching reason tag, and returns nothing when no level is breached. -/
theorem check_exit_conditions_spec (use_trailing_stop : Bool) (p : Position)
    (bar : Bar) :
    check_exit_conditions use_trailing_stop p bar =
      checkExitSpec use_trailing_stop p bar := by
  simp only [check_exit_conditions]
  rw [sl_block, tp_block, trail_block]
  unfold checkExitSpec
  by_cases h1 : slBreached p bar
  · simp [h1]
  · simp only [h1, if_false, Bool.false_eq_true]
    by_cases h2 : tpBreached p bar
    · simp [h2]
    · simp [h2]

/-- **C4 counterexample**: a LONG position with take-profit 110 and
trailing stop 95, on a wide bar (low 94, high 111) breaching both, exits at
the take-profit level with reason `take_profit` — not at the trailing stop
as the claim's priority order (stop-loss, trailing-stop, take-profit)
requires. -/
theorem check_exit_conditions_counterexample :
    check_exit_conditions true
        { entry_timestamp := 0, entry_price := 100, position_type := .LONG,
          size := 1, take_profit := some 110, trailing_stop := some 95 }
        { timestamp := 1, open_price := 100, high := 111, low := 94, close := 100 }
      = some { timestamp := 1, signal_type := .CLOSE_LONG, price := 110,
               metadata_reason := some "take_profit" } ∧
    some "take_profit" ≠ some "trailing_stop" := by
  constructor
  · norm_num [check_exit_conditions, truthy]
  · simp

/-! ## Execution Cost Model (`BacktestEngine`) -/

/-- `BacktestEngine._apply_slippage`: worsen the fill by
`price × slippage_pct` (buys and closing shorts pay up, the rest pay down). -/
def apply_slippage (cfg : BacktestConfig) (price : ℚ) (signal_type : SignalType) : ℚ :=
  let slippage := price * cfg.slippage_pct
  if signal_type = .BUY ∨ signal_type = .CLOSE_SHORT then price + slippage
  else price - slippage

/-- `BacktestEngine._calculate_commission`: fixed commission both ways plus
a percentage of the traded volume.  (The `symbol_info` parameter is unused
in the source as well.) -/
def calculate_commission (cfg : BacktestConfig) (entry_price exit_price size : ℚ)
    (_symbol_info : Option SymbolInfo) : ℚ :=
  let fixed_commission := cfg.commission * 2
  let volume := (entry_price + exit_price) * size
  let pct_commission := volume * cfg.commission_pct
  fixed_commission + pct_commission

/-- `BacktestEngine._calculate_required_margin`:
`price × size × contract_size / leverage` (contract size defaults to 1 when
metadata is absent). -/
def calculate_required_margin (cfg : BacktestConfig) (price size : ℚ)
    (symbol_info : Option SymbolInfo) : ℚ :=
  let contract_size :=
    match symbol_info with
    | some si => si.trade_contract_size.getD 1
    | none => 1
  let position_value := price * size * contract_size
  position_value / cfg.leverage

/-- The spread adjustment `symbol_info.get('spread', 0) ×
symbol_info.get('point', 0.00001)` applied in `_open_position` /
`_close_position` when `config.use_spread` is set and metadata is present. -/
def spreadOf (si : SymbolInfo) : ℚ := si.spread.getD 0 * si.point.getD (1/100000)

/-- The execution price of an opening fill: slippage, then spread (buys pay
the spread on top, sells receive less). -/
def entryExecutionPrice (cfg : BacktestConfig) (symbol_info : Option SymbolInfo)
    (sig : Signal) : ℚ :=
  let p := apply_slippage cfg sig.price sig.signal_type
  if cfg.use_spread then
    match symbol_info with
    | some si => if sig.signal_type = .BUY then p + spreadOf si else p - spreadOf si
    | none => p
  else p

/-- The execution price of a closing fill: slippage, then spread
(closing longs receive less, closing shorts pay more). -/
def exitExecutionPrice (cfg : BacktestConfig) (symbol_info : Option SymbolInfo)
    (sig : Signal) : ℚ :=
  let p := apply_slippage cfg sig.price sig.signal_type
  if cfg.use_spread then
    match symbol_info with
    | some si => if sig.signal_type = .CLOSE_LONG then p - spreadOf si else p + spreadOf si
    | none => p
  else p

/-! ## Position/Trade Lifecycle State Machine and Simulation Driver -/

/-- The mutable state of a `BacktestEngine` during `run` (after `_reset`).
`position_low` starts as `float('inf')` in the source, represented by
`none`; `_open_position` sets both extrema to the execution price before
any read. -/
structure EngineState where
  current_balance : ℚ
  equity : ℚ
  current_position : Option Position
  trades : List Trade
  equity_curve : List ℚ
  balance_curve : List ℚ
  timestamps : List ℕ
  position_high : ℚ
  position_low : Option ℚ
deriving DecidableEq, Repr

/-- `BacktestEngine._reset` / `__init__` state. -/
def initState (cfg : BacktestConfig) : EngineState :=
  { current_balance := cfg.initial_capital
    equity := cfg.initial_capital
    current_position := none
    trades := []
    equity_curve := [cfg.initial_capital]
    balance_curve := [cfg.initial_capital]
    timestamps := []
    position_high := 0
    position_low := none }

/-- `BacktestEngine._open_position`.  `manage_risk` is the strategy
collaborator hook `strategy.manage_risk(signal, bar['close'],
self.current_balance)` (the engine passes no `symbol_info` to it). -/
def openPosition (manage_risk : Signal → ℚ → ℚ → Signal)
    (cfg : BacktestConfig) (symbol_info : Option SymbolInfo)
    (st : EngineState) (signal0 : Signal) (bar : Bar) : EngineState :=
  let signal := manage_risk signal0 bar.close st.current_balance
  let execution_price := entryExecutionPrice cfg symbol_info signal
  let required_margin :=
    calculate_required_margin cfg execution_price signal.position_size symbol_info
  if st.current_balance * (9/10) < required_margin then
    -- log warning "Insufficient margin", state unchanged
    st
  else
    let position_type : PosType := if signal.signal_type = .BUY then .LONG else .SHORT
    { st with
      current_position := some
        { entry_timestamp := signal.timestamp
          entry_price := execution_price
          position_type := position_type
          size := signal.position_size
          stop_loss := signal.stop_loss
          take_profit := signal.take_profit }
      position_high := execution_price
      position_low := some execution_price }

/-- `BacktestEngine._calculate_mae_mfe`, evaluated while the position is
still set.  (The source's unused `exit_price` parameter is kept; the
`getD 0` arm for `position_low` is unreachable in a run because opening a
position initialises it.) -/
def calculate_mae_mfe (st : EngineState) (_exit_price : ℚ) : ℚ × ℚ :=
  match st.current_position with
  | none => (0, 0)
  | some pos =>
    let entry := pos.entry_price
    let plow := st.position_low.getD 0
    if pos.position_type = .LONG then
      ((plow - entry) / entry, (st.position_high - entry) / entry)
    else
      ((entry - st.position_high) / entry, (entry - plow) / entry)

/-- `BacktestEngine._close_position`: realized PnL, commission, net PnL,
balance/equity update, MAE/MFE, Trade record, position discarded. -/
def closePosition (cfg : BacktestConfig) (symbol_info : Option SymbolInfo)
    (st : EngineState) (signal : Signal) : EngineState :=
  match st.current_position with
  | none => st
  | some pos =>
    let execution_price := exitExecutionPrice cfg symbol_info signal
    let pnl :=
      if pos.position_type = .LONG then
        (execution_price - pos.entry_price) * pos.size
      else
        (pos.entry_price - execution_price) * pos.size
    let commission :=
      calculate_commission cfg pos.entry_price execution_price pos.size symbol_info
    let net_pnl := pnl - commission
    let pnl_pct := net_pnl / (pos.entry_price * pos.size)
    let new_balance := st.current_balance + net_pnl
    let maemfe := calculate_mae_mfe st execution_price
    let duration := (st.timestamps.filter
      (fun t => decide (pos.entry_timestamp ≤ t))).length
    let trade : Trade :=
      { entry_time := pos.entry_timestamp
        exit_time := signal.timestamp
        entry_price := pos.entry_price
        exit_price := execution_price
        trade_type := pos.position_type
        size := pos.size
        pnl := net_pnl
        pnl_pct := pnl_pct
        commission := commission
        slippage := pyAbs (execution_price - signal.price) * pos.size
        stop_loss := pos.stop_loss
        take_profit := pos.take_profit
        exit_reason := signal.metadata_reason.getD "signal"
        mae := maemfe.1
        mfe := maemfe.2
        duration_bars := duration }
    { st with
      current_balance := new_balance
      equity := new_balance
      trades := st.trades ++ [trade]
      current_position := none }

/-- `BacktestEngine._update_mae_mfe`. -/
def update_mae_mfe (st : EngineState) (bar : Bar) : EngineState :=
  { st with
    position_high := pyMax st.position_high bar.high
    position_low := some (match st.position_low with
      | none => bar.low
      | some l => pyMin l bar.low) }

/-- `BacktestEngine._update_equity`: mark-to-market against the bar close. -/
def update_equity (st : EngineState) (bar : Bar) : EngineState :=
  match st.current_position with
  | none => { st with equity := st.current_balance }
  | some pos =>
    let current_price := bar.close
    let unrealized_pnl :=
      if pos.position_type = .LONG then
        (current_price - pos.entry_price) * pos.size
      else
        (pos.entry_price - current_price) * pos.size
    { st with equity := st.current_balance + unrealized_pnl }

/-- Entry phase of one loop iteration: `if timestamp in signals_dict and
self.current_position is None` with a BUY/SELL signal, attempt the open. -/
def entryStep (manage_risk : Signal → ℚ → ℚ → Signal)
    (cfg : BacktestConfig) (symbol_info : Option SymbolInfo)
    (st : EngineState) (bar : Bar) (pending_signal : Option Signal) : EngineState :=
  match pending_signal with
  | some signal =>
    if st.current_position = none ∧
        (signal.signal_type = SignalType.BUY ∨ signal.signal_type = SignalType.SELL) then
      openPosition manage_risk cfg symbol_info st signal bar
    else st
  | none => st

/-- Open-position management phase of one loop iteration: ask the exit
evaluator, close on a signal, otherwise mark-to-market MAE/MFE and equity. -/
def manageStep (check_exit : Position → Bar → Option Signal)
    (cfg : BacktestConfig) (symbol_info : Option SymbolInfo)
    (st : EngineState) (bar : Bar) : EngineState :=
  match st.current_position with
  | some pos =>
    match check_exit pos bar with
    | some exit_signal => closePosition cfg symbol_info st exit_signal
    | none => update_equity (update_mae_mfe st bar) bar
  | none => st

/-- Bookkeeping phase of one loop iteration: append `(balance, equity)` to
their curves. -/
def recordStep (st : EngineState) : EngineState :=
  { st with
    balance_curve := st.balance_curve ++ [st.current_balance]
    equity_curve := st.equity_curve ++ [st.equity] }

/-- One iteration of the `for i, (timestamp, bar) in ...` loop of
`BacktestEngine.run`: append the timestamp, entry phase, management phase,
bookkeeping phase.  `pending_signal` is the `signals_dict` lookup for this
bar's timestamp. -/
def processBar (manage_risk : Signal → ℚ → ℚ → Signal)
    (check_exit : Position → Bar → Option Signal)
    (cfg : BacktestConfig) (symbol_info : Option SymbolInfo)
    (st : EngineState) (bar : Bar) (pending_signal : Option Signal) : EngineState :=
  recordStep
    (manageStep check_exit cfg symbol_info
      (entryStep manage_risk cfg symbol_info
        { st with timestamps := st.timestamps ++ [bar.timestamp] }
        bar pending_signal)
      bar)

/-- `signals_dict = {s.timestamp: s for s in signals}`: a later signal with
the same timestamp overwrites an earlier one, so lookup returns the last
match. -/
def signalsLookup (signals : List Signal) (t : ℕ) : Option Signal :=
  (signals.filter (fun s => decide (s.timestamp = t))).getLast?

/-! ## Metrics Aggregator -/

/-- A metrics-dictionary value: a number or `float('inf')` (the
profit-factor sentinel when there are no losing trades). -/
inductive MVal
  | num (q : ℚ)
  | inf
deriving DecidableEq, Repr

/-- `wins = [t for t in trades if t.pnl > 0]`. -/
def winsOf (trades : List Trade) : List Trade :=
  trades.filter (fun t => decide (0 < t.pnl))

/-- `losses = [t for t in trades if t.pnl <= 0]`. -/
def lossesOf (trades : List Trade) : List Trade :=
  trades.filter (fun t => decide (t.pnl ≤ 0))

/-- `np.mean` of a list (the empty case is unreachable from the engine:
metrics are computed only with a non-empty ledger). -/
def npMean (l : List ℚ) : ℚ := if l.length = 0 then 0 else l.sum / l.length

/-- Running maximum (`pandas.Series.cummax`) with accumulator. -/
def cummaxAux (m : ℚ) : List ℚ → List ℚ
  | [] => []
  | x :: xs => pyMax m x :: cummaxAux (pyMax m x) xs

/-- `pandas.Series.cummax`. -/
def cummax : List ℚ → List ℚ
  | [] => []
  | x :: xs => x :: cummaxAux x xs

/-- `BacktestEngine._calculate_drawdown`:
`(equity − cummax(equity)) / cummax(equity)`, pointwise. -/
def drawdownCurve (equity_curve : List ℚ) : List ℚ :=
  List.zipWith (fun e m => (e - m) / m) equity_curve (cummax equity_curve)

/-- `BacktestEngine._calculate_max_drawdown`: minimum of the drawdown
series (the empty case is unreachable: the equity curve always starts with
the initial capital). -/
def maxDrawdownOf (equity_curve : List ℚ) : ℚ :=
  match drawdownCurve equity_curve with
  | [] => 0
  | x :: xs => xs.foldl pyMin x

/-- `BacktestEngine._calculate_metrics`.

`sharpe` abstracts `self._calculate_sharpe_ratio` applied to the trades'
`pnl_pct` series: its value is `mean(excess)/std(excess) × √252`, which
involves real square roots and is therefore passed as a parameter — no
claim depends on its value. -/
def calculateMetrics (sharpe : List ℚ → ℚ) (cfg : BacktestConfig)
    (trades : List Trade) (equity : ℚ) (equity_curve : List ℚ) :
    List (String × MVal) :=
  if trades = [] then [("total_trades", MVal.num 0)]
  else
    let total_trades := trades.length
    let wins := winsOf trades
    let losses := lossesOf trades
    let winning_trades := wins.length
    let losing_trades := losses.length
    let win_rate : ℚ := if 0 < total_trades then (winning_trades : ℚ) / total_trades else 0
    let total_pnl := (trades.map Trade.pnl).sum
    let gross_profit := (wins.map Trade.pnl).sum
    let gross_loss := pyAbs (losses.map Trade.pnl).sum
    let profit_factor : MVal :=
      if 0 < gross_loss then .num (gross_profit / gross_loss) else .inf
    let avg_win : ℚ := if 0 < winning_trades then gross_profit / winning_trades else 0
    let avg_loss : ℚ := if 0 < losing_trades then gross_loss / losing_trades else 0
    let expectancy := win_rate * avg_win - (1 - win_rate) * avg_loss
    let avg_risk_reward : ℚ := if 0 < avg_loss then avg_win / avg_loss else 0
    let sharpe_ratio := sharpe (trades.map Trade.pnl_pct)
    let max_drawdown := maxDrawdownOf equity_curve
    let avg_mae := npMean (trades.map Trade.mae)
    let avg_mfe := npMean (trades.map Trade.mfe)
    let avg_duration := npMean (trades.map (fun t => (t.duration_bars : ℚ)))
    let recovery_factor : ℚ :=
      if max_drawdown ≠ 0 then total_pnl / pyAbs (max_drawdown * cfg.initial_capital)
      else 0
    let annual_return := equity / cfg.initial_capital - 1
    let calmar_ratio : ℚ :=
      if max_drawdown ≠ 0 then annual_return / pyAbs max_drawdown else 0
    [("total_trades", .num total_trades),
     ("winning_trades", .num winning_trades),
     ("losing_trades", .num losing_trades),
     ("win_rate", .num win_rate),
     ("total_pnl", .num total_pnl),
     ("gross_profit", .num gross_profit),
     ("gross_loss", .num gross_loss),
     ("profit_factor", profit_factor),
     ("avg_win", .num avg_win),
     ("avg_loss", .num avg_loss),
     ("expectancy", .num expectancy),
     ("avg_risk_reward", .num avg_risk_reward),
     ("sharpe_ratio", .num sharpe_ratio),
     ("max_drawdown", .num max_drawdown),
     ("recovery_factor", .num recovery_factor),
     ("calmar_ratio", .num calmar_ratio),
     ("avg_mae", .num avg_mae),
     ("avg_mfe", .num avg_mfe),
     ("avg_duration_bars", .num avg_duration),
     ("total_commission", .num (trades.map Trade.commission).sum),
     ("total_slippage", .num (trades.map Trade.slippage).sum)]

/-- `BacktestResult` (the pandas frame `data_with_signals` is reporting
material outside the simulation model; series are represented by their
value lists). -/
structure BacktestResult where
  trades : List Trade
  equity_curve : List ℚ
  balance_curve : List ℚ
  drawdown_curve : List ℚ
  metrics : List (String × MVal)
  initial_capital : ℚ
  final_capital : ℚ
deriving DecidableEq, Repr

/-- The post-loop forced close of `BacktestEngine.run`: any still-open
position is closed at the final bar's close with exit reason
`end_of_data`. -/
def finalClose (cfg : BacktestConfig) (symbol_info : Option SymbolInfo)
    (st : EngineState) (final_bar : Bar) : EngineState :=
  match st.current_position with
  | some pos =>
    closePosition cfg symbol_info st
      { timestamp := final_bar.timestamp
        signal_type := if pos.position_type = PosType.LONG then SignalType.CLOSE_LONG
                       else SignalType.CLOSE_SHORT
        price := final_bar.close
        metadata_reason := some "end_of_data" }
  | none => st

/-- `BacktestEngine.run`: reset, one pass over the bars driving the
lifecycle state machine, forced close of any still-open position at the
last bar, metrics and curves.  The strategy collaborator is the pair
`manage_risk` / `check_exit` (dynamic dispatch in the source). -/
def runEngine (sharpe : List ℚ → ℚ) (manage_risk : Signal → ℚ → ℚ → Signal)
    (check_exit : Position → Bar → Option Signal)
    (cfg : BacktestConfig) (symbol_info : Option SymbolInfo)
    (bars : List Bar) (signals : List Signal) : BacktestResult :=
  let st := bars.foldl
    (fun st bar => processBar manage_risk check_exit cfg symbol_info st bar
      (signalsLookup signals bar.timestamp))
    (initState cfg)
  let st :=
    match bars.getLast? with
    | none => st
    | some final_bar => finalClose cfg symbol_info st final_bar
  { trades := st.trades
    equity_curve := st.equity_curve
    balance_curve := st.balance_curve
    drawdown_curve := drawdownCurve st.equity_curve
    metrics := calculateMetrics sharpe cfg st.trades st.equity st.equity_curve
    initial_capital := cfg.initial_capital
    final_capital := st.equity }

/-- The prefix trace of engine states along a run (initial state first),
for stating whole-run invariants. -/
def runTrace (manage_risk : Signal → ℚ → ℚ → Signal)
    (check_exit : Position → Bar → Option Signal)
    (cfg : BacktestConfig) (symbol_info : Option SymbolInfo)
    (bars : List Bar) (signals : List Signal) : List EngineState :=
  bars.scanl
    (fun st bar => processBar manage_risk check_exit cfg symbol_info st bar
      (signalsLookup signals bar.timestamp))
    (initState cfg)

/-- The number of open positions a state holds (the engine stores at most
a single `Optional[Position]`). -/
def openPositionCount (st : EngineState) : ℕ :=
  match st.current_position with
  | none => 0
  | some _ => 1

/-! ## Performance analyzer streaks (`analysis/performance.py`) -/

/-- `PerformanceAnalyzer._calculate_max_consecutive_wins`: longest run of
trades with `pnl > 0`. -/
def max_consecutive_wins (trades : List Trade) : ℕ :=
  (trades.foldl
    (fun acc trade =>
      if 0 < trade.pnl then (max acc.1 (acc.2 + 1), acc.2 + 1)
      else (acc.1, 0))
    ((0, 0) : ℕ × ℕ)).1

/-- `PerformanceAnalyzer._calculate_max_consecutive_losses`: longest run of
trades with `pnl <= 0`. -/
def max_consecutive_losses (trades : List Trade) : ℕ :=
  (trades.foldl
    (fun acc trade =>
      if trade.pnl ≤ 0 then (max acc.1 (acc.2 + 1), acc.2 + 1)
      else (acc.1, 0))
    ((0, 0) : ℕ × ℕ)).1

/-- Strict monotonicity of the bar timestamps (well-formed input). -/
def timestampsStrictlyIncreasing (bars : List Bar) : Prop :=
  (bars.map Bar.timestamp).Chain' (· < ·)

/-! ## Step-shape lemmas for the engine loop -/

theorem openPosition_cases (mg : Signal → ℚ → ℚ → Signal) (cfg : BacktestConfig)
    (si : Option SymbolInfo) (st : EngineState) (sig : Signal) (bar : Bar) :
    openPosition mg cfg si st sig bar = st ∨
    ∃ pos price, openPosition mg cfg si st sig bar =
      { st with current_position := some pos
                position_high := price
                position_low := some price } := by
  unfold openPosition
  by_cases h : st.current_balance * (9/10) <
      calculate_required_margin cfg
        (entryExecutionPrice cfg si (mg sig bar.close st.current_balance))
        (mg sig bar.close st.current_balance).position_size si
  · left; rw [if_pos h]
  · right; exact ⟨_, _, by rw [if_neg h]⟩

theorem closePosition_none (cfg : BacktestConfig) (si : Option SymbolInfo)
    (st : EngineState) (sig : Signal) (h : st.current_position = none) :
    closePosition cfg si st sig = st := by
  unfold closePosition
  rw [h]

theorem closePosition_curves (cfg : BacktestConfig) (si : Option SymbolInfo)
    (st : EngineState) (sig : Signal) :
    (closePosition cfg si st sig).equity_curve = st.equity_curve ∧
    (closePosition cfg si st sig).balance_curve = st.balance_curve := by
  unfold closePosition
  cases st.current_position <;> exact ⟨rfl, rfl⟩

theorem closePosition_some (cfg : BacktestConfig) (si : Option SymbolInfo)
    (st : EngineState) (sig : Signal) (pos : Position)
    (h : st.current_position = some pos) :
    ∃ tr : Trade,
      (closePosition cfg si st sig).trades = st.trades ++ [tr] ∧
      (closePosition cfg si st sig).current_balance = st.current_balance + tr.pnl ∧
      (closePosition cfg si st sig).equity = st.current_balance + tr.pnl ∧
      (closePosition cfg si st sig).current_position = none := by
  unfold closePosition
  rw [h]
  exact ⟨_, rfl, rfl, rfl, rfl⟩

theorem update_mae_mfe_fields (st : EngineState) (bar : Bar) :
    (update_mae_mfe st bar).current_balance = st.current_balance ∧
    (update_mae_mfe st bar).equity = st.equity ∧
    (update_mae_mfe st bar).current_position = st.current_position ∧
    (update_mae_mfe st bar).trades = st.trades ∧
    (update_mae_mfe st bar).equity_curve = st.equity_curve ∧
    (update_mae_mfe st bar).balance_curve = st.balance_curve :=
  ⟨rfl, rfl, rfl, rfl, rfl, rfl⟩

theorem update_equity_fields (st : EngineState) (bar : Bar) :
    (update_equity st bar).current_balance = st.current_balance ∧
    (update_equity st bar).current_position = st.current_position ∧
    (update_equity st bar).trades = st.trades ∧
    (update_equity st bar).equity_curve = st.equity_curve ∧
    (update_equity st bar).balance_curve = st.balance_curve := by
  unfold update_equity
  cases st.current_position <;> exact ⟨rfl, rfl, rfl, rfl, rfl⟩

/-- Balance, trade ledger and curves are never touched by the entry phase
except through a successful `openPosition`, which also leaves them alone. -/
theorem entryStep_fields (mg : Signal → ℚ → ℚ → Signal) (cfg : BacktestConfig)
    (si : Option SymbolInfo) (st : EngineState) (bar : Bar) (osig : Option Signal) :
    (entryStep mg cfg si st bar osig).current_balance = st.current_balance ∧
    (entryStep mg cfg si st bar osig).equity = st.equity ∧
    (entryStep mg cfg si st bar osig).trades = st.trades ∧
    (entryStep mg cfg si st bar osig).equity_curve = st.equity_curve ∧
    (entryStep mg cfg si st bar osig).balance_curve = st.balance_curve := by
  unfold entryStep
  cases osig with
  | none => exact ⟨rfl, rfl, rfl, rfl, rfl⟩
  | some sig =>
    dsimp only
    by_cases hcond : st.current_position = none ∧
        (sig.signal_type = SignalType.BUY ∨ sig.signal_type = SignalType.SELL)
    · rw [if_pos hcond]
      rcases openPosition_cases mg cfg si st sig bar with h | ⟨pos, price, h⟩ <;>
        rw [h] <;> exact ⟨rfl, rfl, rfl, rfl, rfl⟩
    · rw [if_neg hcond]; exact ⟨rfl, rfl, rfl, rfl, rfl⟩

theorem manageStep_curves (ce : Position → Bar → Option Signal)
    (cfg : BacktestConfig) (si : Option SymbolInfo) (st : EngineState) (bar : Bar) :
    (manageStep ce cfg si st bar).equity_curve = st.equity_curve ∧
    (manageStep ce cfg si st bar).balance_curve = st.balance_curve := by
  unfold manageStep
  cases hc : st.current_position with
  | none => exact ⟨rfl, rfl⟩
  | some pos =>
    dsimp only
    cases ce pos bar with
    | some es => exact closePosition_curves cfg si st es
    | none =>
      dsimp only
      refine ⟨?_, ?_⟩
      · rw [(update_equity_fields _ _).2.2.2.1, (update_mae_mfe_fields _ _).2.2.2.2.1]
      · rw [(update_equity_fields _ _).2.2.2.2, (update_mae_mfe_fields _ _).2.2.2.2.2]

/-- Every loop iteration appends exactly one point to each curve. -/
theorem processBar_curves (mg : Signal → ℚ → ℚ → Signal)
    (ce : Position → Bar → Option Signal) (cfg : BacktestConfig)
    (si : Option SymbolInfo) (st : EngineState) (bar : Bar) (osig : Option Signal) :
    ∃ e b : ℚ,
      (processBar mg ce cfg si st bar osig).equity_curve = st.equity_curve ++ [e] ∧
      (processBar mg ce cfg si st bar osig).balance_curve = st.balance_curve ++ [b] := by
  unfold processBar recordStep
  refine ⟨(manageStep ce cfg si (entryStep mg cfg si
      { st with timestamps := st.timestamps ++ [bar.timestamp] } bar osig) bar).equity,
    (manageStep ce cfg si (entryStep mg cfg si
      { st with timestamps := st.timestamps ++ [bar.timestamp] } bar osig) bar).current_balance,
    ?_, ?_⟩
  · show (manageStep ce cfg si (entryStep mg cfg si
        { st with timestamps := st.timestamps ++ [bar.timestamp] } bar osig) bar).equity_curve ++ _ = _
    rw [(manageStep_curves _ _ _ _ _).1,
      (entryStep_fields mg cfg si { st with timestamps := st.timestamps ++ [bar.timestamp] } bar osig).2.2.2.1]
  · show (manageStep ce cfg si (entryStep mg cfg si
        { st with timestamps := st.timestamps ++ [bar.timestamp] } bar osig) bar).balance_curve ++ _ = _
    rw [(manageStep_curves _ _ _ _ _).2,
      (entryStep_fields mg cfg si { st with timestamps := st.timestamps ++ [bar.timestamp] } bar osig).2.2.2.2]

/-! ## C2: single-position invariant; second entry signal is a no-op -/

/-- **C2**: (a) along any run the engine holds at most one open position at
every intermediate state (it stores a single `Optional[Position]`);
(b) processing a bar with a pending entry signal while a position is open
is identical to processing it with no pending signal at all — the signal is
ignored, not queued, and the open position is untouched by it. -/
theorem single_position_invariant :
    (∀ (mg : Signal → ℚ → ℚ → Signal) (ce : Position → Bar → Option Signal)
        (cfg : BacktestConfig) (si : Option SymbolInfo)
        (bars : List Bar) (signals : List Signal) (st' : EngineState),
        st' ∈ runTrace mg ce cfg si bars signals → openPositionCount st' ≤ 1) ∧
    (∀ (mg : Signal → ℚ → ℚ → Signal) (ce : Position → Bar → Option Signal)
        (cfg : BacktestConfig) (si : Option SymbolInfo)
        (st : EngineState) (bar : Bar) (sig : Signal),
        st.current_position.isSome = true →
        processBar mg ce cfg si st bar (some sig) =
          processBar mg ce cfg si st bar none) := by
  constructor
  · intro mg ce cfg si bars signals st' _
    unfold openPositionCount
    cases st'.current_position <;> simp
  · intro mg ce cfg si st bar sig h
    unfold processBar entryStep
    have hne : ¬(({ st with timestamps := st.timestamps ++ [bar.timestamp] }
        : EngineState).current_position = none ∧
        (sig.signal_type = SignalType.BUY ∨ sig.signal_type = SignalType.SELL)) := by
      rintro ⟨h0, -⟩
      rw [show ({ st with timestamps := st.timestamps ++ [bar.timestamp] }
        : EngineState).current_position = st.current_position from rfl] at h0
      rw [h0] at h
      simp at h
    dsimp only
    rw [if_neg hne]

/-- **C2 witness**: with a concrete open position, a pending BUY signal
leaves the bar's processing identical to having no signal. -/
theorem single_position_invariant_witness :
    (some { entry_timestamp := 0, entry_price := 100, position_type := PosType.LONG,
            size := 1 : Position }).isSome = true ∧
    processBar (fun s _ _ => s) (fun _ _ => none) {} none
        { current_balance := 10000, equity := 10000,
          current_position := some { entry_timestamp := 0, entry_price := 100,
                                     position_type := PosType.LONG, size := 1 },
          trades := [], equity_curve := [10000], balance_curve := [10000],
          timestamps := [0], position_high := 100, position_low := some 100 }
        { timestamp := 1, open_price := 100, high := 101, low := 99, close := 100 }
        (some { timestamp := 1, signal_type := SignalType.BUY, price := 100 }) =
      processBar (fun s _ _ => s) (fun _ _ => none) {} none
        { current_balance := 10000, equity := 10000,
          current_position := some { entry_timestamp := 0, entry_price := 100,
                                     position_type := PosType.LONG, size := 1 },
          trades := [], equity_curve := [10000], balance_curve := [10000],
          timestamps := [0], position_high := 100, position_low := some 100 }
        { timestamp := 1, open_price := 100, high := 101, low := 99, close := 100 }
        none :=
  ⟨rfl,
    single_position_invariant.2 (fun s _ _ => s) (fun _ _ => none) {} none
      { current_balance := 10000, equity := 10000,
        current_position := some { entry_timestamp := 0, entry_price := 100,
                                   position_type := PosType.LONG, size := 1 },
        trades := [], equity_curve := [10000], balance_curve := [10000],
        timestamps := [0], position_high := 100, position_low := some 100 }
      { timestamp := 1, open_price := 100, high := 101, low := 99, close := 100 }
      { timestamp := 1, signal_type := SignalType.BUY, price := 100 }
      rfl⟩

/-! ## C6: margin shortfall refuses the open and leaves the state unchanged -/

/-- **C6**: when the required margin
(`execution_price × size × contract_size / leverage`) of the managed signal
exceeds 90% of the current balance, `_open_position` returns with the
machine state unchanged — no position, same balance, no trade — and the run
simply continues. -/
theorem open_refused_on_margin_shortfall
    (mg : Signal → ℚ → ℚ → Signal) (cfg : BacktestConfig)
    (si : Option SymbolInfo) (st : EngineState) (sig : Signal) (bar : Bar)
    (h : st.current_balance * (9/10) <
      calculate_required_margin cfg
        (entryExecutionPrice cfg si (mg sig bar.close st.current_balance))
        (mg sig bar.close st.current_balance).position_size si) :
    openPosition mg cfg si st sig bar = st := by
  unfold openPosition
  rw [if_pos h]

/-- **C6 witness**: a BUY for 1,000,000 lots at price 100 with leverage 100
needs margin far above 90% of a $10,000 balance; the open is a no-op. -/
theorem open_refused_on_margin_shortfall_witness :
    ((initState {}).current_balance * (9/10) <
      calculate_required_margin {}
        (entryExecutionPrice {} none
          ((fun (s : Signal) (_ _ : ℚ) => s)
            { timestamp := 0, signal_type := SignalType.BUY, price := 100,
              position_size := 1000000 }
            ({ timestamp := 0, open_price := 100, high := 100, low := 100,
               close := 100 : Bar }).close
            (initState {}).current_balance))
        ((fun (s : Signal) (_ _ : ℚ) => s)
          { timestamp := 0, signal_type := SignalType.BUY, price := 100,
            position_size := 1000000 }
          ({ timestamp := 0, open_price := 100, high := 100, low := 100,
             close := 100 : Bar }).close
          (initState {}).current_balance).position_size none) ∧
    openPosition (fun s _ _ => s) {} none (initState {})
        { timestamp := 0, signal_type := SignalType.BUY, price := 100,
          position_size := 1000000 }
        { timestamp := 0, open_price := 100, high := 100, low := 100, close := 100 }
      = initState {} := by
  have hm : (initState ({} : BacktestConfig)).current_balance * (9/10) <
      calculate_required_margin {}
        (entryExecutionPrice {} none
          ((fun (s : Signal) (_ _ : ℚ) => s)
            { timestamp := 0, signal_type := SignalType.BUY, price := 100,
              position_size := 1000000 }
            ({ timestamp := 0, open_price := 100, high := 100, low := 100,
               close := 100 : Bar }).close
            (initState {}).current_balance))
        ((fun (s : Signal) (_ _ : ℚ) => s)
          { timestamp := 0, signal_type := SignalType.BUY, price := 100,
            position_size := 1000000 }
          ({ timestamp := 0, open_price := 100, high := 100, low := 100,
             close := 100 : Bar }).close
          (initState {}).current_balance).position_size none := by
    norm_num [initState, calculate_required_margin, entryExecutionPrice,
      apply_slippage, spreadOf]
  exact ⟨hm, open_refused_on_margin_shortfall (fun s _ _ => s) {} none (initState {})
    { timestamp := 0, signal_type := SignalType.BUY, price := 100,
      position_size := 1000000 }
    { timestamp := 0, open_price := 100, high := 100, low := 100, close := 100 } hm⟩

/-! ## C8: empty ledger metrics -/

/-- **C8**: with an empty trade ledger the metrics aggregator returns the
one-entry map `{total_trades: 0}` and nothing else (no other metric is
computed, so no denominator is ever formed). -/
theorem metrics_empty_ledger (sharpe : List ℚ → ℚ) (cfg : BacktestConfig)
    (equity : ℚ) (equity_curve : List ℚ) :
    calculateMetrics sharpe cfg [] equity equity_curve =
      [("total_trades", MVal.num 0)] := rfl

/-! ## C3: trade conservation -/

/-- The run invariant behind trade conservation: the balance is the initial
capital plus the net pnl of all closed trades, and whenever the engine is
flat the marked equity coincides with the balance. -/
def ConservationInvariant (cfg : BacktestConfig) (st : EngineState) : Prop :=
  st.current_balance = cfg.initial_capital + (st.trades.map Trade.pnl).sum ∧
  (st.current_position = none → st.equity = st.current_balance)

theorem entryStep_position_cases (mg : Signal → ℚ → ℚ → Signal)
    (cfg : BacktestConfig) (si : Option SymbolInfo) (st : EngineState)
    (bar : Bar) (osig : Option Signal) :
    entryStep mg cfg si st bar osig = st ∨
    ∃ pos price, entryStep mg cfg si st bar osig =
      { st with current_position := some pos
                position_high := price
                position_low := some price } := by
  unfold entryStep
  cases osig with
  | none => left; rfl
  | some sig =>
    dsimp only
    by_cases hcond : st.current_position = none ∧
        (sig.signal_type = SignalType.BUY ∨ sig.signal_type = SignalType.SELL)
    · rw [if_pos hcond]; exact openPosition_cases mg cfg si st sig bar
    · rw [if_neg hcond]; left; rfl

theorem entryStep_conservation (mg : Signal → ℚ → ℚ → Signal)
    (cfg : BacktestConfig) (si : Option SymbolInfo) (st : EngineState)
    (bar : Bar) (osig : Option Signal) (h : ConservationInvariant cfg st) :
    ConservationInvariant cfg (entryStep mg cfg si st bar osig) := by
  rcases entryStep_position_cases mg cfg si st bar osig with h1 | ⟨pos, price, h1⟩ <;>
    rw [h1]
  · exact h
  · exact ⟨h.1, by intro hp; simp at hp⟩

theorem manageStep_conservation (ce : Position → Bar → Option Signal)
    (cfg : BacktestConfig) (si : Option SymbolInfo) (st : EngineState)
    (bar : Bar) (h : ConservationInvariant cfg st) :
    ConservationInvariant cfg (manageStep ce cfg si st bar) := by
  unfold manageStep
  cases hc : st.current_position with
  | none => exact h
  | some pos =>
    dsimp only
    cases ce pos bar with
    | some es =>
      rcases closePosition_some cfg si st es pos hc with ⟨tr, ht, hb, he, hp⟩
      constructor
      · rw [hb, ht, h.1]
        simp [add_assoc]
      · intro _
        rw [he, hb]
    | none =>
      dsimp only
      constructor
      · rw [(update_equity_fields (update_mae_mfe st bar) bar).1,
          (update_mae_mfe_fields st bar).1,
          (update_equity_fields (update_mae_mfe st bar) bar).2.2.1,
          (update_mae_mfe_fields st bar).2.2.2.1]
        exact h.1
      · intro hp
        rw [(update_equity_fields (update_mae_mfe st bar) bar).2.1,
          (update_mae_mfe_fields st bar).2.2.1, hc] at hp
        simp at hp

theorem processBar_conservation (mg : Signal → ℚ → ℚ → Signal)
    (ce : Position → Bar → Option Signal) (cfg : BacktestConfig)
    (si : Option SymbolInfo) (st : EngineState) (bar : Bar)
    (osig : Option Signal) (h : ConservationInvariant cfg st) :
    ConservationInvariant cfg (processBar mg ce cfg si st bar osig) := by
  unfold processBar
  exact manageStep_conservation ce cfg si _ bar
    (entryStep_conservation mg cfg si _ bar osig h)

theorem foldl_conservation (mg : Signal → ℚ → ℚ → Signal)
    (ce : Position → Bar → Option Signal) (cfg : BacktestConfig)
    (si : Option SymbolInfo) (signals : List Signal) :
    ∀ (bars : List Bar) (st : EngineState), ConservationInvariant cfg st →
      ConservationInvariant cfg (bars.foldl
        (fun st bar => processBar mg ce cfg si st bar
          (signalsLookup signals bar.timestamp)) st) := by
  intro bars
  induction bars with
  | nil => intro st h; exact h
  | cons b bs ih =>
    intro st h
    rw [List.foldl_cons]
    exact ih _ (processBar_conservation mg ce cfg si st b _ h)

theorem finalClose_conservation (cfg : BacktestConfig) (si : Option SymbolInfo)
    (st : EngineState) (fb : Bar) (h : ConservationInvariant cfg st) :
    ConservationInvariant cfg (finalClose cfg si st fb) ∧
    (finalClose cfg si st fb).current_position = none := by
  unfold finalClose
  cases hc : st.current_position with
  | none => exact ⟨h, hc⟩
  | some pos =>
    dsimp only
    rcases closePosition_some cfg si st _ pos hc with ⟨tr, ht, hb, he, hp⟩
    refine ⟨⟨?_, ?_⟩, hp⟩
    · rw [hb, ht, h.1]; simp [add_assoc]
    · intro _; rw [he, hb]

theorem initState_conservation (cfg : BacktestConfig) :
    ConservationInvariant cfg (initState cfg) := by
  constructor
  · simp [initState]
  · intro _; rfl

/-- **C3**: for every completed run the reported final capital is the
initial capital plus the sum of the (commission-net) `pnl` of all trades in
the ledger; in particular a run with no trades ends at the initial
capital. -/
theorem trade_conservation (sharpe : List ℚ → ℚ)
    (mg : Signal → ℚ → ℚ → Signal) (ce : Position → Bar → Option Signal)
    (cfg : BacktestConfig) (si : Option SymbolInfo)
    (bars : List Bar) (signals : List Signal) (hne : bars ≠ []) :
    (runEngine sharpe mg ce cfg si bars signals).final_capital =
      cfg.initial_capital +
        (((runEngine sharpe mg ce cfg si bars signals).trades.map Trade.pnl).sum) ∧
    ((runEngine sharpe mg ce cfg si bars signals).trades = [] →
      (runEngine sharpe mg ce cfg si bars signals).final_capital =
        cfg.initial_capital) := by
  have hloop := foldl_conservation mg ce cfg si signals bars (initState cfg)
    (initState_conservation cfg)
  unfold runEngine
  dsimp only
  cases hlast : bars.getLast? with
  | none => exact absurd (List.getLast?_eq_none_iff.mp hlast) hne
  | some fb =>
    dsimp only
    obtain ⟨hinv, hflat⟩ := finalClose_conservation cfg si _ fb hloop
    have hmain : (finalClose cfg si (bars.foldl
        (fun st bar => processBar mg ce cfg si st bar
          (signalsLookup signals bar.timestamp)) (initState cfg)) fb).equity =
        cfg.initial_capital +
          (((finalClose cfg si (bars.foldl
            (fun st bar => processBar mg ce cfg si st bar
              (signalsLookup signals bar.timestamp)) (initState cfg)) fb).trades.map
            Trade.pnl).sum) := by
      rw [hinv.2 hflat, hinv.1]
    refine ⟨hmain, ?_⟩
    intro htr
    rw [hmain, htr]
    simp

/-- **C3 witness**: a one-bar run with no signals has an empty ledger and
ends exactly at the initial capital (10000). -/
theorem trade_conservation_witness :
    (([{ timestamp := 0, open_price := 1, high := 1, low := 1, close := 1 }] :
        List Bar) ≠ []) ∧
    (runEngine (fun _ => 0) (fun s _ _ => s) (fun _ _ => none) {} none
        [{ timestamp := 0, open_price := 1, high := 1, low := 1, close := 1 }]
        []).final_capital = ({} : BacktestConfig).initial_capital :=
  ⟨by simp,
    (trade_conservation (fun _ => 0) (fun s _ _ => s) (fun _ _ => none) {} none
        [{ timestamp := 0, open_price := 1, high := 1, low := 1, close := 1 }] []
        (by simp)).2 rfl⟩

/-! ## C9: no monotonicity validation; the loop consumes every bar -/

theorem finalClose_curves (cfg : BacktestConfig) (si : Option SymbolInfo)
    (st : EngineState) (fb : Bar) :
    (finalClose cfg si st fb).equity_curve = st.equity_curve ∧
    (finalClose cfg si st fb).balance_curve = st.balance_curve := by
  unfold finalClose
  cases st.current_position with
  | none => exact ⟨rfl, rfl⟩
  | some pos => exact closePosition_curves cfg si st _

theorem foldl_curves (mg : Signal → ℚ → ℚ → Signal)
    (ce : Position → Bar → Option Signal) (cfg : BacktestConfig)
    (si : Option SymbolInfo) (signals : List Signal) :
    ∀ (bars : List Bar) (st : EngineState),
      (bars.foldl (fun st bar => processBar mg ce cfg si st bar
          (signalsLookup signals bar.timestamp)) st).equity_curve.length =
        st.equity_curve.length + bars.length ∧
      (bars.foldl (fun st bar => processBar mg ce cfg si st bar
          (signalsLookup signals bar.timestamp)) st).balance_curve.length =
        st.balance_curve.length + bars.length := by
  intro bars
  induction bars with
  | nil => intro st; exact ⟨rfl, rfl⟩
  | cons b bs ih =>
    intro st
    rw [List.foldl_cons]
    obtain ⟨e, bq, he, hb⟩ := processBar_curves mg ce cfg si st b
      (signalsLookup signals b.timestamp)
    obtain ⟨ihe, ihb⟩ := ih (processBar mg ce cfg si st b
      (signalsLookup signals b.timestamp))
    constructor
    · rw [ihe, he, List.length_append]
      simp only [List.length_cons, List.length_nil, List.length_cons]
      omega
    · rw [ihb, hb, List.length_append]
      simp only [List.length_cons, List.length_nil, List.length_cons]
      omega

/-- **C9 (amended)**: the engine performs no timestamp validation at all.
For every non-empty bar series — monotonic or not — the simulation loop
runs over every bar and completes normally: the equity and balance curves
gain exactly one point per bar on top of the initial point.  (Emptiness of
the input, not mis-ordering, is the only condition the source run fails
on, and with an uncaught IndexError rather than a diagnostic.) -/
theorem run_consumes_every_bar (sharpe : List ℚ → ℚ)
    (mg : Signal → ℚ → ℚ → Signal) (ce : Position → Bar → Option Signal)
    (cfg : BacktestConfig) (si : Option SymbolInfo)
    (bars : List Bar) (signals : List Signal) (_hne : bars ≠ []) :
    (runEngine sharpe mg ce cfg si bars signals).equity_curve.length =
      bars.length + 1 ∧
    (runEngine sharpe mg ce cfg si bars signals).balance_curve.length =
      bars.length + 1 := by
  unfold runEngine
  dsimp only
  obtain ⟨he, hb⟩ := foldl_curves mg ce cfg si signals bars (initState cfg)
  cases bars.getLast? with
  | none =>
    dsimp only
    rw [he, hb]
    exact ⟨by simp [initState, Nat.add_comm], by simp [initState, Nat.add_comm]⟩
  | some fb =>
    dsimp only
    rw [(finalClose_curves cfg si _ fb).1, (finalClose_curves cfg si _ fb).2, he, hb]
    exact ⟨by simp [initState, Nat.add_comm], by simp [initState, Nat.add_comm]⟩

/-- **C9 witness**: a concrete one-bar run produces two-point curves. -/
theorem run_consumes_every_bar_witness :
    (([{ timestamp := 5, open_price := 1, high := 1, low := 1, close := 1 }] :
        List Bar) ≠ []) ∧
    (runEngine (fun _ => 0) (fun s _ _ => s) (fun _ _ => none) {} none
        [{ timestamp := 5, open_price := 1, high := 1, low := 1, close := 1 }]
        []).equity_curve.length = 1 + 1 ∧
    (runEngine (fun _ => 0) (fun s _ _ => s) (fun _ _ => none) {} none
        [{ timestamp := 5, open_price := 1, high := 1, low := 1, close := 1 }]
        []).balance_curve.length = 1 + 1 :=
  ⟨by simp,
    (run_consumes_every_bar (fun _ => 0) (fun s _ _ => s) (fun _ _ => none) {} none
      [{ timestamp := 5, open_price := 1, high := 1, low := 1, close := 1 }] []
      (by simp)).1,
    (run_consumes_every_bar (fun _ => 0) (fun s _ _ => s) (fun _ _ => none) {} none
      [{ timestamp := 5, open_price := 1, high := 1, low := 1, close := 1 }] []
      (by simp)).2⟩

/-- **C9 counterexample**: on a two-bar series whose timestamps 2, 1 are
*not* monotonically increasing, the engine does not fail fast before the
loop: the loop runs to completion over both bars, producing the full
three-point curves and a normal result. -/
theorem run_nonmonotonic_counterexample :
    ¬ timestampsStrictlyIncreasing
        [{ timestamp := 2, open_price := 1, high := 1, low := 1, close := 1 },
         { timestamp := 1, open_price := 1, high := 1, low := 1, close := 1 }] ∧
    (runEngine (fun _ => 0) (fun s _ _ => s) (fun _ _ => none) {} none
        [{ timestamp := 2, open_price := 1, high := 1, low := 1, close := 1 },
         { timestamp := 1, open_price := 1, high := 1, low := 1, close := 1 }]
        []).equity_curve = [10000, 10000, 10000] ∧
    (runEngine (fun _ => 0) (fun s _ _ => s) (fun _ _ => none) {} none
        [{ timestamp := 2, open_price := 1, high := 1, low := 1, close := 1 },
         { timestamp := 1, open_price := 1, high := 1, low := 1, close := 1 }]
        []).final_capital = 10000 := by
  refine ⟨?_, rfl, rfl⟩
  intro h
  unfold timestampsStrictlyIncreasing at h
  simp [List.chain'_cons] at h

/-! ## C5: drawdown non-positivity -/

theorem cummaxAux_length (m : ℚ) (l : List ℚ) : (cummaxAux m l).length = l.length := by
  induction l generalizing m with
  | nil => rfl
  | cons x xs ih => simp [cummaxAux, ih]

theorem cummax_length (l : List ℚ) : (cummax l).length = l.length := by
  cases l with
  | nil => rfl
  | cons x xs => simp [cummax, cummaxAux_length]

theorem drawdownCurve_length (l : List ℚ) : (drawdownCurve l).length = l.length := by
  simp [drawdownCurve, cummax_length]

theorem cummaxAux_self_le (l : List ℚ) :
    ∀ (m : ℚ) (i : ℕ), i < l.length → l.getD i 0 ≤ (cummaxAux m l).getD i 0 := by
  induction l with
  | nil => intro m i hi; simp at hi
  | cons x xs ih =>
    intro m i hi
    cases i with
    | zero => simp [cummaxAux, pyMax_eq_max]
    | succ i =>
      simp only [cummaxAux, List.getD_cons_succ]
      exact ih (pyMax m x) i (by simpa using hi)

theorem cummaxAux_acc_le (l : List ℚ) :
    ∀ (m : ℚ) (i : ℕ), i < l.length → m ≤ (cummaxAux m l).getD i 0 := by
  induction l with
  | nil => intro m i hi; simp at hi
  | cons x xs ih =>
    intro m i hi
    cases i with
    | zero => simp [cummaxAux, pyMax_eq_max]
    | succ i =>
      simp only [cummaxAux, List.getD_cons_succ]
      exact le_trans (by rw [pyMax_eq_max]; exact le_max_left m x)
        (ih (pyMax m x) i (by simpa using hi))

theorem cummaxAux_prefix_le (l : List ℚ) :
    ∀ (m : ℚ) (i j : ℕ), j ≤ i → i < l.length →
      l.getD j 0 ≤ (cummaxAux m l).getD i 0 := by
  induction l with
  | nil => intro m i j _ hi; simp at hi
  | cons x xs ih =>
    intro m i j hj hi
    cases j with
    | zero =>
      cases i with
      | zero => simp [cummaxAux, pyMax_eq_max]
      | succ i =>
        simp only [cummaxAux, List.getD_cons_succ, List.getD_cons_zero]
        exact le_trans (by rw [pyMax_eq_max]; exact le_max_right m x)
          (cummaxAux_acc_le xs (pyMax m x) i (by simpa using hi))
    | succ j =>
      cases i with
      | zero => omega
      | succ i =>
        simp only [cummaxAux, List.getD_cons_succ]
        exact ih (pyMax m x) i j (by omega) (by simpa using hi)

theorem cummaxAux_attained (l : List ℚ) :
    ∀ (m : ℚ) (i : ℕ), i < l.length →
      (cummaxAux m l).getD i 0 = m ∨
      ∃ j, j ≤ i ∧ j < l.length ∧ (cummaxAux m l).getD i 0 = l.getD j 0 := by
  induction l with
  | nil => intro m i hi; simp at hi
  | cons x xs ih =>
    intro m i hi
    cases i with
    | zero =>
      by_cases hmx : m < x
      · right
        exact ⟨0, le_refl 0, by simp, by simp [cummaxAux, pyMax, hmx]⟩
      · left
        simp [cummaxAux, pyMax, hmx]
    | succ i =>
      have hi' : i < xs.length := by simpa using hi
      simp only [cummaxAux, List.getD_cons_succ]
      rcases ih (pyMax m x) i hi' with h | ⟨j, hj1, hj2, hj3⟩
      · by_cases hmx : m < x
        · right
          exact ⟨0, by omega, by simp, by rw [h]; simp [pyMax, hmx]⟩
        · left
          rw [h]; simp [pyMax, hmx]
      · right
        exact ⟨j + 1, by omega, by simpa using Nat.succ_lt_succ hj2,
          by simpa using hj3⟩

theorem cummax_self_le (l : List ℚ) (i : ℕ) (hi : i < l.length) :
    l.getD i 0 ≤ (cummax l).getD i 0 := by
  cases l with
  | nil => simp at hi
  | cons x xs =>
    cases i with
    | zero => simp [cummax]
    | succ i =>
      simp only [cummax, List.getD_cons_succ]
      exact cummaxAux_self_le xs x i (by simpa using hi)

theorem cummax_prefix_le (l : List ℚ) (i j : ℕ) (hj : j ≤ i) (hi : i < l.length) :
    l.getD j 0 ≤ (cummax l).getD i 0 := by
  cases l with
  | nil => simp at hi
  | cons x xs =>
    cases i with
    | zero =>
      have : j = 0 := by omega
      subst this
      simp [cummax]
    | succ i =>
      have hi' : i < xs.length := by simpa using hi
      cases j with
      | zero =>
        simp only [cummax, List.getD_cons_succ, List.getD_cons_zero]
        exact cummaxAux_acc_le xs x i hi'
      | succ j =>
        simp only [cummax, List.getD_cons_succ]
        exact cummaxAux_prefix_le xs x i j (by omega) hi'

theorem cummax_attained (l : List ℚ) (i : ℕ) (hi : i < l.length) :
    ∃ j, j ≤ i ∧ j < l.length ∧ (cummax l).getD i 0 = l.getD j 0 := by
  cases l with
  | nil => simp at hi
  | cons x xs =>
    cases i with
    | zero => exact ⟨0, le_refl 0, by simp, by simp [cummax]⟩
    | succ i =>
      have hi' : i < xs.length := by simpa using hi
      simp only [cummax, List.getD_cons_succ]
      rcases cummaxAux_attained xs x i hi' with h | ⟨j, hj1, hj2, hj3⟩
      · exact ⟨0, by omega, by simp, by simpa using h⟩
      · exact ⟨j + 1, by omega, by simpa using Nat.succ_lt_succ hj2, by simpa using hj3⟩

theorem cummax_pos (e0 : ℚ) (rest : List ℚ) (h0 : 0 < e0) (i : ℕ)
    (hi : i < (e0 :: rest : List ℚ).length) :
    0 < (cummax (e0 :: rest)).getD i 0 :=
  lt_of_lt_of_le h0 (by simpa using cummax_prefix_le (e0 :: rest) i 0 (by omega) hi)

/-- The pointwise facts about the drawdown series of a positive-start
equity curve. -/
theorem drawdown_facts (e0 : ℚ) (rest : List ℚ) (h0 : 0 < e0) (i : ℕ)
    (hi : i < (e0 :: rest : List ℚ).length) :
    (drawdownCurve (e0 :: rest)).getD i 0 ≤ 0 ∧
    ((drawdownCurve (e0 :: rest)).getD i 0 = 0 ↔
      ∀ j, j ≤ i → (e0 :: rest : List ℚ).getD j 0 ≤ (e0 :: rest : List ℚ).getD i 0) := by
  set l : List ℚ := e0 :: rest with hl
  have hml : (cummax l).length = l.length := cummax_length l
  have hddl : (drawdownCurve l).length = l.length := drawdownCurve_length l
  have hgdd : (drawdownCurve l).getD i 0 =
      (l.getD i 0 - (cummax l).getD i 0) / (cummax l).getD i 0 := by
    rw [List.getD_eq_getElem (drawdownCurve l) 0 (by omega),
      List.getD_eq_getElem l 0 (by omega),
      List.getD_eq_getElem (cummax l) 0 (by omega)]
    simp [drawdownCurve]
  have hm0 : 0 < (cummax l).getD i 0 := cummax_pos e0 rest h0 i hi
  have hA : l.getD i 0 ≤ (cummax l).getD i 0 := cummax_self_le l i hi
  constructor
  · rw [hgdd, div_nonpos_iff]
    right
    exact ⟨sub_nonpos.mpr hA, hm0.le⟩
  · rw [hgdd]
    rw [div_eq_zero_iff]
    constructor
    · rintro (hz | hz)
      · have heq : l.getD i 0 = (cummax l).getD i 0 := by linarith [sub_eq_zero.mp hz]
        intro j hj
        calc l.getD j 0 ≤ (cummax l).getD i 0 := cummax_prefix_le l i j hj hi
          _ = l.getD i 0 := heq.symm
      · exact absurd hz hm0.ne'
    · intro hmax
      left
      obtain ⟨j, hj1, hj2, hj3⟩ := cummax_attained l i hi
      have h1 : (cummax l).getD i 0 ≤ l.getD i 0 := by
        rw [hj3]; exact hmax j hj1
      have : l.getD i 0 = (cummax l).getD i 0 := le_antisymm hA h1
      rw [this, sub_self]

/-- Appending points preserves the head of the equity curve along a run. -/
theorem run_equity_head (sharpe : List ℚ → ℚ)
    (mg : Signal → ℚ → ℚ → Signal) (ce : Position → Bar → Option Signal)
    (cfg : BacktestConfig) (si : Option SymbolInfo)
    (bars : List Bar) (signals : List Signal) :
    ∃ rest, (runEngine sharpe mg ce cfg si bars signals).equity_curve =
      cfg.initial_capital :: rest := by
  have hfold : ∀ (bs : List Bar) (st : EngineState),
      (∃ t, st.equity_curve = cfg.initial_capital :: t) →
      ∃ t, (bs.foldl (fun st bar => processBar mg ce cfg si st bar
        (signalsLookup signals bar.timestamp)) st).equity_curve =
        cfg.initial_capital :: t := by
    intro bs
    induction bs with
    | nil => intro st h; exact h
    | cons b bs ih =>
      intro st ⟨t, ht⟩
      rw [List.foldl_cons]
      apply ih
      obtain ⟨e, bq, he, _⟩ := processBar_curves mg ce cfg si st b
        (signalsLookup signals b.timestamp)
      exact ⟨t ++ [e], by rw [he, ht]; simp⟩
  obtain ⟨t, ht⟩ := hfold bars (initState cfg) ⟨[], rfl⟩
  unfold runEngine
  dsimp only
  cases bars.getLast? with
  | none => exact ⟨t, ht⟩
  | some fb =>
    dsimp only
    exact ⟨t, by rw [(finalClose_curves cfg si _ fb).1, ht]⟩

/-- **C5**: for a run with positive initial capital, the drawdown curve
`(equity − running_max(equity)) / running_max(equity)` is ≤ 0 everywhere,
and vanishes exactly at the points where the equity attains its running
maximum (is ≥ every earlier equity value). -/
theorem drawdown_nonpositive (sharpe : List ℚ → ℚ)
    (mg : Signal → ℚ → ℚ → Signal) (ce : Position → Bar → Option Signal)
    (cfg : BacktestConfig) (si : Option SymbolInfo)
    (bars : List Bar) (signals : List Signal)
    (hpos : 0 < cfg.initial_capital) (i : ℕ)
    (hi : i < (runEngine sharpe mg ce cfg si bars signals).drawdown_curve.length) :
    (runEngine sharpe mg ce cfg si bars signals).drawdown_curve.getD i 0 ≤ 0 ∧
    ((runEngine sharpe mg ce cfg si bars signals).drawdown_curve.getD i 0 = 0 ↔
      ∀ j, j ≤ i →
        (runEngine sharpe mg ce cfg si bars signals).equity_curve.getD j 0 ≤
        (runEngine sharpe mg ce cfg si bars signals).equity_curve.getD i 0) := by
  obtain ⟨rest, hhead⟩ := run_equity_head sharpe mg ce cfg si bars signals
  have hdd : (runEngine sharpe mg ce cfg si bars signals).drawdown_curve =
      drawdownCurve ((runEngine sharpe mg ce cfg si bars signals).equity_curve) := rfl
  rw [hdd, hhead] at hi ⊢
  rw [drawdownCurve_length] at hi
  exact drawdown_facts cfg.initial_capital rest hpos i hi

/-- **C5 witness**: a one-bar run with the default $10,000 capital has
drawdown 0 at the initial point, and the running-maximum characterisation
holds there. -/
theorem drawdown_nonpositive_witness :
    ((0:ℚ) < ({} : BacktestConfig).initial_capital ∧
      0 < (runEngine (fun _ => 0) (fun s _ _ => s) (fun _ _ => none) {} none
        [{ timestamp := 0, open_price := 1, high := 1, low := 1, close := 1 }]
        []).drawdown_curve.length) ∧
    ((runEngine (fun _ => 0) (fun s _ _ => s) (fun _ _ => none) {} none
        [{ timestamp := 0, open_price := 1, high := 1, low := 1, close := 1 }]
        []).drawdown_curve.getD 0 0 ≤ 0 ∧
      ((runEngine (fun _ => 0) (fun s _ _ => s) (fun _ _ => none) {} none
          [{ timestamp := 0, open_price := 1, high := 1, low := 1, close := 1 }]
          []).drawdown_curve.getD 0 0 = 0 ↔
        ∀ j, j ≤ 0 →
          (runEngine (fun _ => 0) (fun s _ _ => s) (fun _ _ => none) {} none
            [{ timestamp := 0, open_price := 1, high := 1, low := 1, close := 1 }]
            []).equity_curve.getD j 0 ≤
          (runEngine (fun _ => 0) (fun s _ _ => s) (fun _ _ => none) {} none
            [{ timestamp := 0, open_price := 1, high := 1, low := 1, close := 1 }]
            []).equity_curve.getD 0 0)) :=
  ⟨⟨by norm_num, by decide⟩,
    drawdown_nonpositive (fun _ => 0) (fun s _ _ => s) (fun _ _ => none) {} none
      [{ timestamp := 0, open_price := 1, high := 1, low := 1, close := 1 }] []
      (by norm_num) 0 (by decide)⟩

/-! ## C10: zero-pnl trades are losses, partition, streak convention -/

theorem wins_losses_partition (trades : List Trade) :
    (winsOf trades).length + (lossesOf trades).length = trades.length := by
  unfold winsOf lossesOf
  induction trades with
  | nil => rfl
  | cons t ts ih =>
    by_cases h : 0 < t.pnl
    · simp [List.filter_cons, h, not_le.mpr h]
      omega
    · simp [List.filter_cons, h, not_lt.mp h]
      omega

theorem loss_streak_fold (l : List Trade) :
    ∀ acc : ℕ × ℕ, (∀ t ∈ l, t.pnl ≤ 0) →
      (l.foldl (fun acc trade =>
        if trade.pnl ≤ 0 then (max acc.1 (acc.2 + 1), acc.2 + 1)
        else (acc.1, 0)) acc).1 =
      if l.length = 0 then acc.1 else max acc.1 (acc.2 + l.length) := by
  induction l with
  | nil => intro acc _; rfl
  | cons t ts ih =>
    intro acc hall
    rw [List.foldl_cons, if_pos (hall t (List.mem_cons_self t ts))]
    rw [ih _ (fun u hu => hall u (List.mem_cons_of_mem t hu))]
    simp only [List.length_cons]
    by_cases h : ts.length = 0
    · rw [if_pos h, if_neg (by omega : ¬ ts.length + 1 = 0), h]
    · rw [if_neg h, if_neg (by omega : ¬ ts.length + 1 = 0)]
      simp only [Nat.max_def]
      split_ifs <;> omega

theorem win_streak_fold_zero (l : List Trade) :
    ∀ mx : ℕ, (∀ t ∈ l, t.pnl ≤ 0) →
      (l.foldl (fun acc trade =>
        if 0 < trade.pnl then (max acc.1 (acc.2 + 1), acc.2 + 1)
        else (acc.1, 0)) (mx, 0)).1 = mx := by
  induction l with
  | nil => intro mx _; rfl
  | cons t ts ih =>
    intro mx hall
    rw [List.foldl_cons, if_neg (not_lt.mpr (hall t (List.mem_cons_self t ts)))]
    exact ih mx (fun u hu => hall u (List.mem_cons_of_mem t hu))

/-- **C10**: a trade with `pnl == 0` counts as a loss everywhere: the
metrics aggregator's `wins`/`losses` filters (`pnl > 0` / `pnl <= 0`)
partition the ledger exactly, the reported `winning_trades`,
`losing_trades` and `win_rate = winning/total` follow that convention, and
the performance analyzer's consecutive-streak counters use the same
`pnl <= 0` test (an all-non-positive ledger is one maximal loss streak and
has no win streak). -/
theorem zero_pnl_counts_as_loss :
    (∀ trades : List Trade,
      (winsOf trades).length + (lossesOf trades).length = trades.length) ∧
    (∀ (sharpe : List ℚ → ℚ) (cfg : BacktestConfig) (trades : List Trade)
        (equity : ℚ) (equity_curve : List ℚ), trades ≠ [] →
      (calculateMetrics sharpe cfg trades equity equity_curve).lookup
          "winning_trades" = some (.num ((winsOf trades).length : ℚ)) ∧
      (calculateMetrics sharpe cfg trades equity equity_curve).lookup
          "losing_trades" = some (.num ((lossesOf trades).length : ℚ)) ∧
      (calculateMetrics sharpe cfg trades equity equity_curve).lookup
          "win_rate" =
        some (.num (((winsOf trades).length : ℚ) / (trades.length : ℚ)))) ∧
    (∀ trades : List Trade, (∀ t ∈ trades, t.pnl ≤ 0) →
      max_consecutive_losses trades = trades.length ∧
      max_consecutive_wins trades = 0) := by
  refine ⟨wins_losses_partition, ?_, ?_⟩
  · intro sharpe cfg trades equity equity_curve hne
    unfold calculateMetrics
    rw [if_neg hne]
    have hpos : 0 < trades.length := List.length_pos.mpr hne
    refine ⟨?_, ?_, ?_⟩ <;> simp [List.lookup, hpos]
  · intro trades hall
    constructor
    · unfold max_consecutive_losses
      rw [loss_streak_fold trades ((0, 0) : ℕ × ℕ) hall]
      by_cases h : trades.length = 0
      · simp [h]
      · simp [h]
    · unfold max_consecutive_wins
      exact win_streak_fold_zero trades 0 hall

/-- **C10 witness**: a single trade with `pnl = 0` is counted as a losing
trade by the metrics map and forms a loss streak of length 1 with no win
streak. -/
theorem zero_pnl_counts_as_loss_witness :
    (calculateMetrics (fun _ => 0) {}
        [{ entry_time := 0, exit_time := 1, entry_price := 100, exit_price := 100,
           trade_type := .LONG, size := 1, pnl := 0, pnl_pct := 0, commission := 0,
           slippage := 0 }] 10000 [10000, 10000]).lookup "losing_trades" =
      some (.num 1) ∧
    max_consecutive_losses
        [{ entry_time := 0, exit_time := 1, entry_price := 100, exit_price := 100,
           trade_type := .LONG, size := 1, pnl := 0, pnl_pct := 0, commission := 0,
           slippage := 0 }] = 1 ∧
    max_consecutive_wins
        [{ entry_time := 0, exit_time := 1, entry_price := 100, exit_price := 100,
           trade_type := .LONG, size := 1, pnl := 0, pnl_pct := 0, commission := 0,
           slippage := 0 }] = 0 := by
  have h2 := (zero_pnl_counts_as_loss.2.1 (fun _ => 0) {}
    [{ entry_time := 0, exit_time := 1, entry_price := 100, exit_price := 100,
       trade_type := .LONG, size := 1, pnl := 0, pnl_pct := 0, commission := 0,
       slippage := 0 }] 10000 [10000, 10000] (by simp)).2.1
  have h3 := zero_pnl_counts_as_loss.2.2
    [{ entry_time := 0, exit_time := 1, entry_price := 100, exit_price := 100,
       trade_type := .LONG, size := 1, pnl := 0, pnl_pct := 0, commission := 0,
       slippage := 0 }] (by intro t ht; simp at ht; rw [ht])
  refine ⟨?_, by simpa using h3.1, h3.2⟩
  rw [h2]
  norm_num [lossesOf]

end StrategyBacktest
